import Mathlib

/-!
Verification of the lotus wallet repository: a shallow embedding of the
backend router (`cmd/lotus-wallet/safewallet.go`), the offline
pending-signature queue (`cmd/lotus-offline-wallet/offline.go`) and the
client/server signing relay (`cmd/lotus-wallet/server.go`,
`cmd/lotus-wallet/main.go`), together with proofs about them.

Modelling conventions:
- `address.Address` and `cid.Cid` are opaque values with decidable
  equality; we use `Nat`.
- Byte slices are `List Nat`.
- External capabilities (CID parsing `cid.CidFromBytes`, signature
  verification `sigs.Verify`) are parameters of the embedded functions.
- Go maps become association lists; iteration order of a Go map is
  arbitrary, so theorems that depend on which entry a scan finds carry a
  uniqueness hypothesis.
- The rendezvous `chan *crypto.Signature` is modelled by a channel
  identity (`Nat`, allocated from a counter in the state); delivering a
  signature on a channel is modelled by returning the pair
  (channel id, signature).
- Fallible Go functions returning `(T, error)` become `Except Err T`.
-/

/-- Opaque key address (`address.Address`); equality is by value. -/
abbrev Address : Type := Nat

/-- Content identifier (`cid.Cid`) derived from payload bytes. -/
abbrev Cid : Type := Nat

/-- A byte slice. -/
abbrev Bytes : Type := List Nat

/-- Key type tag (`types.KeyType`, a string in the source). -/
abbrev KeyType : Type := String

/-- `api.MsgType`: the signing-context tag carried in `api.MsgMeta`. -/
inductive MsgType where
  | MTChainMsg
  | MTBlock
  | MTDealProposal
  | MTUnknown
deriving DecidableEq, Repr

/-- `api.MsgMeta` (and the offline wallet's identical `Meta` struct):
a signing-context tag plus extra bytes. -/
structure MsgMeta where
  mtype : MsgType
  extra : Bytes
deriving DecidableEq, Repr

/-- `crypto.Signature`: an opaque blob plus a key-family tag. -/
structure Signature where
  sigType : Nat
  data : Bytes
deriving DecidableEq, Repr

/-- `types.KeyInfo`: raw exported key material. -/
structure KeyInfo where
  keyType : KeyType
  privateKey : Bytes
deriving DecidableEq, Repr

/-- The distinct error values produced by the embedded functions, one
constructor per distinct `errors.New`/`fmt.Errorf`/`xerrors` site (or
per external-error source) that the claims need to tell apart. -/
inductive Err where
  /-- error returned by `cid.CidFromBytes` on bytes that are not a CID -/
  | cidInvalid
  /-- offline.go: "only MTChainMsg is supported" -/
  | onlyChainMsg
  /-- offline.go: "timeout to wait to submit signature" -/
  | timeout
  /-- error returned by `sigs.Verify` on a bad signature -/
  | verifyFailed
  /-- offline.go: "message %v does not exist" -/
  | msgNotExist (c : Cid)
  /-- safewallet.go: "safe wallet is enabled, use import instead of new" -/
  | safeNoNew
  /-- safewallet.go: "DO NOT EXPORT THIS WALLET" -/
  | safeNoExport
  /-- server.go: "wallet not exist" -/
  | walletNotExist
  /-- safewallet.go MultiWallet: "no wallet backends supporting key type" -/
  | noBackend (kt : KeyType)
  /-- server.go: read/write failure on the websocket during `call` -/
  | transport
  /-- server.go: "deserialize response" -/
  | deserializeResponse
  /-- server.go: `xerrors.New(resp.Err)` — the error string relayed from the peer -/
  | remoteErr (s : String)
  /-- server.go serve: "list wallets" (the initial `call` failed) -/
  | listWallets
  /-- server.go serve: "expect list wallet response" -/
  | expectListWalletResponse
  /-- server.go serve: "failed to decode addresses" -/
  | decodeAddresses
  /-- a backend-internal error, used to instantiate generic backends -/
  | backendErr (n : Nat)
deriving DecidableEq, Repr

/- ----------------------------------------------------------------
Offline pending-signature queue
(`cmd/lotus-offline-wallet/offline.go`)
---------------------------------------------------------------- -/

/-- `UnsignedMessage`: a queued signing request (offline.go:30-34). -/
structure UnsignedMessage where
  address : Address
  toSign : Bytes
  meta : MsgMeta
deriving DecidableEq, Repr

/-- `SignedMessage`: an `UnsignedMessage` together with a signature
(offline.go:36-39). -/
structure SignedMessage where
  msg : UnsignedMessage
  signature : Signature
deriving DecidableEq, Repr

/-- `PendingUnsignedMessage`: a queued request plus its rendezvous
channel, identified here by a channel id (offline.go:41-44). -/
structure PendingUnsignedMessage where
  msg : UnsignedMessage
  ch : Nat
deriving DecidableEq, Repr

/-- The mutable state of `OfflineWallet` that the claims concern:
the two-level Go map `unsigned map[address.Address]map[cid.Cid]...`
flattened into an association list keyed by (address, cid), plus a
counter allocating fresh rendezvous-channel identities. -/
structure OfflineWalletState where
  unsigned : List (Address × Cid × PendingUnsignedMessage)
  nextCh : Nat
deriving DecidableEq, Repr

/-- Lookup of the entry at key (a, c), mirroring `o.unsigned[a][c]`. -/
def lookupPending (l : List (Address × Cid × PendingUnsignedMessage))
    (a : Address) (c : Cid) : Option PendingUnsignedMessage :=
  (l.find? (fun e => e.1 == a && e.2.1 == c)).map (fun e => e.2.2)

/-- Removal of the entry at key (a, c), mirroring
`delete(o.unsigned[a], c)`. -/
def erasePending (l : List (Address × Cid × PendingUnsignedMessage))
    (a : Address) (c : Cid) : List (Address × Cid × PendingUnsignedMessage) :=
  l.filter (fun e => !(e.1 == a && e.2.1 == c))

/-- Insertion at key (a, c), mirroring `o.unsigned[a][c] = p`
(a Go map assignment overwrites any existing entry). -/
def insertPending (l : List (Address × Cid × PendingUnsignedMessage))
    (a : Address) (c : Cid) (p : PendingUnsignedMessage) :
    List (Address × Cid × PendingUnsignedMessage) :=
  (a, c, p) :: erasePending l a c

/-- The scan in `SubmitSignature` (offline.go:189-196): iterate over the
whole two-level map and return the first entry whose cid equals `c`.
The address component of the key is NOT compared. -/
def findByCid (l : List (Address × Cid × PendingUnsignedMessage))
    (c : Cid) : Option PendingUnsignedMessage :=
  (l.find? (fun e => e.2.1 == c)).map (fun e => e.2.2)

/-- `OfflineWallet.GetPendingMessages` (offline.go:163-174): a snapshot
of every queued request, across all addresses. -/
def getPendingMessages (st : OfflineWalletState) : List UnsignedMessage :=
  st.unsigned.map (fun e => e.2.2.msg)

/-- The five-minute wall-clock timeout of `WalletSign`
(`time.After(5*time.Minute)`, offline.go:134). -/
def signTimeoutMinutes : Nat := 5

/-- The registration step of `OfflineWallet.WalletSign`
(offline.go:101-122): under the mutex, allocate a fresh rendezvous
channel and insert the `PendingUnsignedMessage` at key (signer, c).
Returns the new state and the channel id. -/
def signRegister (st : OfflineWalletState) (signer : Address)
    (toSign : Bytes) (meta : MsgMeta) (c : Cid) :
    OfflineWalletState × Nat :=
  let p : PendingUnsignedMessage :=
    { msg := { address := signer, toSign := toSign, meta := meta }
      ch := st.nextCh }
  (⟨insertPending st.unsigned signer c p, st.nextCh + 1⟩, st.nextCh)

/-- `OfflineWallet.WalletSign` (offline.go:91-139).
`cidFromBytes` embeds the external `cid.CidFromBytes`.  The blocking
`select` between the rendezvous channel and `time.After(5*time.Minute)`
is embedded by the `outcome` parameter: `none` means nothing was
received on the channel within the timeout, `some sig` means `sig` was
received.  The deferred deletion of the entry at (signer, c) runs on
both of those paths; the two early-return error paths occur before the
entry is inserted so they leave the state untouched. -/
def walletSign (cidFromBytes : Bytes → Option Cid)
    (st : OfflineWalletState) (signer : Address) (toSign : Bytes)
    (meta : MsgMeta) (outcome : Option Signature) :
    Except Err Signature × OfflineWalletState :=
  match cidFromBytes toSign with
  | none => (.error .cidInvalid, st)
  | some c =>
    if meta.mtype ≠ MsgType.MTChainMsg then
      (.error .onlyChainMsg, st)
    else
      let reg := signRegister st signer toSign meta c
      let stAfter : OfflineWalletState :=
        ⟨erasePending reg.1.unsigned signer c, reg.1.nextCh⟩
      match outcome with
      | none => (.error .timeout, stAfter)
      | some sig => (.ok sig, stAfter)

/-- `OfflineWallet.SubmitSignature` (offline.go:176-198): parse the
payload's CID, verify the signature with the external capability
(`sigs.Verify`), then under the mutex scan for a pending entry with a
matching cid and deliver the signature on its rendezvous channel.
The function never writes to the pending map, so the state is returned
unchanged on every path; a successful delivery is reported as the pair
(channel id, signature). -/
def submitSignature (cidFromBytes : Bytes → Option Cid)
    (verify : Signature → Address → Bytes → Bool)
    (st : OfflineWalletState) (message : SignedMessage) :
    Except Err (Nat × Signature) × OfflineWalletState :=
  match cidFromBytes message.msg.toSign with
  | none => (.error .cidInvalid, st)
  | some c =>
    if verify message.signature message.msg.address message.msg.toSign then
      match findByCid st.unsigned c with
      | some p => (.ok (p.ch, message.signature), st)
      | none => (.error (.msgNotExist c), st)
    else
      (.error .verifyFailed, st)

/-- Well-formedness of the pending map: every entry's recorded message
carries the address of its key and hashes to the cid of its key.
`WalletSign` only ever inserts such entries. -/
def wfPending (cidFromBytes : Bytes → Option Cid)
    (st : OfflineWalletState) : Prop :=
  ∀ e ∈ st.unsigned,
    e.2.2.msg.address = e.1 ∧ cidFromBytes e.2.2.msg.toSign = some e.2.1

/- ----------------------------------------------------------------
Relay protocol: server side (`cmd/lotus-wallet/server.go`) and the
client dispatch loop (`cmd/lotus-wallet/main.go`, `connectCmd`)
---------------------------------------------------------------- -/

/-- The four command kinds (server.go:18-23), a stable small integer
enumeration. -/
def CommandListWalletRequest : Nat := 0

/-- `CommandListWalletResponse` (server.go:20). -/
def CommandListWalletResponse : Nat := 1

/-- `CommandSignRequest` (server.go:21). -/
def CommandSignRequest : Nat := 2

/-- `CommandSignResponse` (server.go:22). -/
def CommandSignResponse : Nat := 3

/-- `SignRequest` (server.go:25-29): the payload of a sign-request
command. -/
structure SignRequest where
  signer : Address
  toSign : Bytes
  meta : MsgMeta
deriving DecidableEq, Repr

/-- `SignResponse` (server.go:31-34): the payload of a sign-response
command; `signature` is a nullable pointer in the source, `err` is the
in-band error string (empty string = no error). -/
structure SignResponse where
  signature : Option Signature
  err : String
deriving DecidableEq, Repr

/-- `ListWalletResponse` (server.go:36-39). -/
structure ListWalletResponse where
  addresses : List Address
  err : String
deriving DecidableEq, Repr

/-- The opaque `Data []byte` field of a command, modelled as a tagged
sum: JSON-encoding a payload is the corresponding constructor and
JSON-decoding into a payload type succeeds exactly on the matching
constructor; `corrupt` stands for bytes that decode as no payload. -/
inductive WireData where
  | nil
  | listWalletResp (r : ListWalletResponse)
  | signReq (r : SignRequest)
  | signResp (r : SignResponse)
  | corrupt (n : Nat)
deriving DecidableEq, Repr

/-- `command` (server.go:41-44): the message envelope. -/
structure Command where
  command : Nat
  data : WireData
deriving DecidableEq, Repr

/-- `json.Unmarshal(out.Data, &resp)` for `SignResponse`
(server.go:120-123). -/
def unmarshalSignResp : WireData → Option SignResponse
  | .signResp r => some r
  | _ => none

/-- `json.Unmarshal(out.Data, &resp)` for `ListWalletResponse`
(server.go:182-186). -/
def unmarshalListWalletResp : WireData → Option ListWalletResponse
  | .listWalletResp r => some r
  | _ => none

/-- `json.Unmarshal(out.Data, &req)` for `SignRequest`
(main.go:287-289, client side). -/
def unmarshalSignReq : WireData → Option SignRequest
  | .signReq r => some r
  | _ => none

/-- `clientWallet` (server.go:46-50): one registered relay connection,
holding the address set advertised at handshake and (here) the identity
of its websocket. -/
structure ClientWallet where
  addresses : List Address
  connId : Nat
deriving DecidableEq, Repr

/-- The `clients map[*clientWallet]bool` registry of `WalletServer`
(server.go:66-69), as a list (Go map iteration order is arbitrary). -/
structure WalletServerState where
  clients : List ClientWallet
deriving DecidableEq, Repr

/-- The scan of `WalletServer.WalletSign` (server.go:101-103) and
`WalletHas` (server.go:78-84): the first registered client whose
advertised address set contains `signer`. -/
def findClient : List ClientWallet → Address → Option ClientWallet
  | [], _ => none
  | c :: rest, a =>
    if a ∈ c.addresses then some c else findClient rest a

/-- `WalletServer.WalletSign` (server.go:98-132).  The network round
trip `c.call` (write the command, block for the reply) is embedded by
the `reply` parameter, indexed by the connection identity; `.error ()`
is a transport failure.  Besides the call's result we also return the
command that was sent over the wire (`none` when no client owned the
address so nothing was sent), so that theorems can speak about the
transmitted sign-request.  `json.Marshal` of a `SignRequest` cannot
fail and is the `WireData.signReq` constructor. -/
def serverWalletSign (reply : Nat → Command → Except Unit Command)
    (st : WalletServerState) (signer : Address) (toSign : Bytes)
    (meta : MsgMeta) : Except Err (Option Signature) × Option Command :=
  match findClient st.clients signer with
  | none => (.error .walletNotExist, none)
  | some c =>
    let sent : Command :=
      { command := CommandSignRequest
        data := WireData.signReq { signer := signer, toSign := toSign, meta := meta } }
    match reply c.connId sent with
    | .error _ => (.error .transport, some sent)
    | .ok out =>
      match unmarshalSignResp out.data with
      | none => (.error .deserializeResponse, some sent)
      | some resp =>
        if resp.err.length > 0 then (.error (.remoteErr resp.err), some sent)
        else (.ok resp.signature, some sent)

/-- `WalletServer.serve` (server.go:162-217): the handshake.  The
server sends a list-wallets request and blocks for the reply
(`client.call`, embedded by the `reply` parameter).  On a transport
error, a reply of the wrong command kind, or a reply whose data fails
to decode as a `ListWalletResponse`, the handshake fails and the
registry is left untouched; otherwise the connection is registered
with the advertised address set (the `resp.err` field is not
inspected, faithfully to the source).  The ping goroutine and close
handler mutate no registry state at registration time and are not
modelled. -/
def serve (reply : Except Unit Command) (st : WalletServerState)
    (connId : Nat) : Except Err Unit × WalletServerState :=
  match reply with
  | .error _ => (.error .listWallets, st)
  | .ok out =>
    if out.command ≠ CommandListWalletResponse then
      (.error .expectListWalletResponse, st)
    else
      match unmarshalListWalletResp out.data with
      | none => (.error .decodeAddresses, st)
      | some resp =>
        (.ok (), ⟨{ addresses := resp.addresses, connId := connId } :: st.clients⟩)

/-- The condition under which the handshake reply is acceptable to
`serve`: the transport call succeeded, the command kind is
list-wallets-response, and the data decodes. -/
def handshakeOk (reply : Except Unit Command) : Bool :=
  match reply with
  | .error _ => false
  | .ok out =>
    out.command == CommandListWalletResponse
      && (unmarshalListWalletResp out.data).isSome

/- ----------------------------------------------------------------
Multi-backend router and safe-wallet decorator
(`cmd/lotus-wallet/safewallet.go`)
---------------------------------------------------------------- -/

/-- One backend implementing the capability interface
(`api.WalletAPI`), as its observable response behaviour. -/
structure Backend where
  walletNew : KeyType → Except Err Address
  walletHas : Address → Except Err Bool
  walletList : Except Err (List Address)
  walletSign : Address → Bytes → MsgMeta → Except Err (Option Signature)
  walletExport : Address → Except Err KeyInfo
  walletImport : KeyInfo → Except Err Address
  walletDelete : Address → Except Err Unit

/-- `MultiWallet` (safewallet.go): an ordered list of backends. -/
structure MultiWallet where
  wallets : List Backend

/-- `MultiWallet.WalletNew` (safewallet.go:71-80): try backends in
order, return the first success; if every backend errors, return the
aggregate "no wallet backends supporting key type" error. -/
def multiWalletNew : List Backend → KeyType → Except Err Address
  | [], kt => .error (.noBackend kt)
  | w :: rest, kt =>
    match w.walletNew kt with
    | .ok a => .ok a
    | .error _ => multiWalletNew rest kt

/-- The body of the loop of `MultiWallet.WalletList`
(safewallet.go:105-112): append each address of `l` to `out` unless it
was already emitted.  In the source `seen` is a set whose members are
at all times exactly the members of `out`, so the membership test is
made on `out` directly. -/
def appendDedup (out : List Address) : List Address → List Address
  | [] => out
  | a :: rest =>
    if a ∈ out then appendDedup out rest
    else appendDedup (out ++ [a]) rest

/-- The backend loop of `MultiWallet.WalletList` (safewallet.go:99-113):
an error from any backend aborts the whole call. -/
def multiWalletListAux : List Backend → List Address → Except Err (List Address)
  | [], out => .ok out
  | w :: ws, out =>
    match w.walletList with
    | .error e => .error e
    | .ok l => multiWalletListAux ws (appendDedup out l)

/-- `MultiWallet.WalletList` (safewallet.go:95-116). -/
def multiWalletList (m : MultiWallet) : Except Err (List Address) :=
  multiWalletListAux m.wallets []

/-- `SafeWallet` (safewallet.go:12-42): the capability-restricting
decorator.  `WalletNew` and `WalletExport` unconditionally return fixed
errors; every other operation delegates verbatim to the wrapped
backend. -/
def safeWallet (w : Backend) : Backend :=
  { walletNew := fun _ => .error .safeNoNew
    walletHas := w.walletHas
    walletList := w.walletList
    walletSign := w.walletSign
    walletExport := fun _ => .error .safeNoExport
    walletImport := w.walletImport
    walletDelete := w.walletDelete }

/- ----------------------------------------------------------------
Lock-discipline traces
---------------------------------------------------------------- -/

/-- The events of one function body that matter for lock discipline:
mutex acquire/release, guarded-map access, and the three kinds of
potentially blocking operations (channel send, channel receive with
timeout, network round trip). -/
inductive LockEv where
  | lock
  | unlock
  | mapWrite
  | mapRead
  | chanSend
  | chanRecv
  | netCall
deriving DecidableEq, Repr

/-- Whether an event can block its goroutine. -/
def isBlockingEv : LockEv → Bool
  | .chanSend => true
  | .chanRecv => true
  | .netCall => true
  | _ => false

/-- Whether a trace performs a potentially blocking event while the
lock is held (`depth` counts currently-held acquisitions). -/
def blockingWhileLocked : List LockEv → Nat → Bool
  | [], _ => false
  | e :: rest, depth =>
    match e with
    | .lock => blockingWhileLocked rest (depth + 1)
    | .unlock => blockingWhileLocked rest (depth - 1)
    | ev => (isBlockingEv ev && decide (0 < depth)) || blockingWhileLocked rest depth

/-- The event trace of `OfflineWallet.WalletSign` on its main path
(offline.go:101-138): Lock/insert/Unlock in the registration closure
(101-122), the blocking `select` on the rendezvous channel and the
timer (133-138) with no lock held, then Lock/delete/Unlock in the
deferred cleanup (124-131). -/
def offlineWalletSignTrace : List LockEv :=
  [.lock, .mapWrite, .unlock, .chanRecv, .lock, .mapWrite, .unlock]

/-- The event trace of `OfflineWallet.SubmitSignature`
(offline.go:187-196): `o.lock.Lock()` at 187 with a deferred Unlock at
188, the scan of the pending map at 189-191, and the send on the
rendezvous channel `m.ch <- &message.Signature` at 192 — performed
before the deferred Unlock runs. -/
def submitSignatureTrace : List LockEv :=
  [.lock, .mapRead, .chanSend, .unlock]

/-- The event trace of `WalletServer.WalletSign` (server.go:98-132):
`o.mutex.Lock()` at 99 with a deferred Unlock at 100, the registry scan
at 101-103, and the network round trip `c.call(...)` at 113 — performed
before the deferred Unlock runs. -/
def serverWalletSignTrace : List LockEv :=
  [.lock, .mapRead, .netCall, .unlock]

/- ----------------------------------------------------------------
Helper lemmas
---------------------------------------------------------------- -/

theorem mem_erasePending {l : List (Address × Cid × PendingUnsignedMessage)}
    {a : Address} {c : Cid} {e : Address × Cid × PendingUnsignedMessage} :
    e ∈ erasePending l a c ↔ e ∈ l ∧ ¬(e.1 = a ∧ e.2.1 = c) := by
  simp only [erasePending, List.mem_filter, Bool.not_eq_true', Bool.and_eq_false_iff,
    beq_eq_false_iff_ne, ne_eq, not_and]
  constructor
  · rintro ⟨h1, h2 | h2⟩
    · exact ⟨h1, fun ha => absurd ha h2⟩
    · exact ⟨h1, fun _ => h2⟩
  · rintro ⟨h1, h2⟩
    by_cases ha : e.1 = a
    · exact ⟨h1, Or.inr (h2 ha)⟩
    · exact ⟨h1, Or.inl ha⟩

theorem lookupPending_erasePending
    (l : List (Address × Cid × PendingUnsignedMessage)) (a : Address) (c : Cid) :
    lookupPending (erasePending l a c) a c = none := by
  simp only [lookupPending, Option.map_eq_none', List.find?_eq_none]
  intro e he
  rcases mem_erasePending.mp he with ⟨_, hne⟩
  simp only [Bool.and_eq_true, beq_iff_eq]
  intro h
  exact hne h

theorem findClient_eq_none {l : List ClientWallet} {a : Address}
    (h : ∀ cl ∈ l, a ∉ cl.addresses) : findClient l a = none := by
  induction l with
  | nil => rfl
  | cons c rest ih =>
    simp only [findClient]
    rw [if_neg (h c (List.mem_cons_self c rest))]
    exact ih fun cl hcl => h cl (List.mem_cons_of_mem c hcl)

theorem string_ne_empty_iff_length_pos (s : String) : s ≠ "" ↔ 0 < s.length := by
  cases s with
  | mk data =>
    constructor
    · intro h
      have hd : data ≠ [] := by
        intro hnil
        exact h (by simp [hnil])
      simpa [String.length] using List.length_pos.mpr hd
    · intro h heq
      have : data = [] := by
        simpa using congrArg String.data heq
      simp [String.length, this] at h

theorem mem_appendDedup {a : Address} :
    ∀ (l out : List Address), a ∈ appendDedup out l ↔ a ∈ out ∨ a ∈ l := by
  intro l
  induction l with
  | nil => intro out; simp [appendDedup]
  | cons b rest ih =>
    intro out
    by_cases hb : b ∈ out
    · rw [appendDedup, if_pos hb, ih]
      constructor
      · rintro (h | h)
        · exact Or.inl h
        · exact Or.inr (List.mem_cons_of_mem b h)
      · rintro (h | h)
        · exact Or.inl h
        · rcases List.mem_cons.mp h with rfl | h
          · exact Or.inl hb
          · exact Or.inr h
    · rw [appendDedup, if_neg hb, ih]
      simp only [List.mem_append, List.mem_singleton, List.mem_cons]
      tauto

theorem nodup_appendDedup :
    ∀ (l out : List Address), out.Nodup → (appendDedup out l).Nodup := by
  intro l
  induction l with
  | nil => intro out h; simpa [appendDedup] using h
  | cons b rest ih =>
    intro out h
    by_cases hb : b ∈ out
    · rw [appendDedup, if_pos hb]
      exact ih out h
    · rw [appendDedup, if_neg hb]
      refine ih (out ++ [b]) ?_
      simp [List.nodup_append, h, hb]

theorem multiWalletListAux_spec :
    ∀ (ws : List Backend) (out : List Address),
      (∀ w ∈ ws, ∃ l, w.walletList = .ok l) →
      ∃ res, multiWalletListAux ws out = .ok res ∧
        (out.Nodup → res.Nodup) ∧
        (∀ a, a ∈ res ↔ a ∈ out ∨ ∃ w ∈ ws, ∃ l, w.walletList = .ok l ∧ a ∈ l) := by
  intro ws
  induction ws with
  | nil =>
    intro out _
    exact ⟨out, rfl, fun h => h, by simp⟩
  | cons w rest ih =>
    intro out hok
    obtain ⟨l, hl⟩ := hok w (List.mem_cons_self w rest)
    obtain ⟨res, hres, hnd, hmem⟩ :=
      ih (appendDedup out l) (fun w' hw' => hok w' (List.mem_cons_of_mem w hw'))
    refine ⟨res, ?_, ?_, ?_⟩
    · simp [multiWalletListAux, hl, hres]
    · intro h
      exact hnd (nodup_appendDedup l out h)
    · intro a
      rw [hmem a, mem_appendDedup]
      constructor
      · rintro ((h | h) | ⟨w', hw', h⟩)
        · exact Or.inl h
        · exact Or.inr ⟨w, List.mem_cons_self w rest, l, hl, h⟩
        · exact Or.inr ⟨w', List.mem_cons_of_mem w hw', h⟩
      · rintro (h | ⟨w', hw', l', hl', h⟩)
        · exact Or.inl (Or.inl h)
        · rcases List.mem_cons.mp hw' with rfl | hw'
          · rw [hl] at hl'
            cases hl'
            exact Or.inl (Or.inr h)
          · exact Or.inr ⟨w', hw', l', hl', h⟩

/- ----------------------------------------------------------------
Concrete instances used by the witnesses
---------------------------------------------------------------- -/

/-- A concrete CID extractor standing in for `cid.CidFromBytes` in the
witnesses: the first byte of the payload, failing on empty bytes. -/
def cfb0 : Bytes → Option Cid := fun bs => bs.head?

/-- A concrete verifier standing in for `sigs.Verify` in the
witnesses: accepts exactly signatures of family tag 1. -/
def verify0 : Signature → Address → Bytes → Bool :=
  fun sig _ _ => sig.sigType == 1

/-- An empty offline-queue state. -/
def st0 : OfflineWalletState := ⟨[], 0⟩

/-- A local backend that can create keys (address 5). -/
def backendLocal : Backend :=
  { walletNew := fun _ => .ok 5
    walletHas := fun a => .ok (a == 5)
    walletList := .ok [5]
    walletSign := fun _ _ _ => .ok (some ⟨1, [9]⟩)
    walletExport := fun _ => .error (.backendErr 0)
    walletImport := fun _ => .ok 5
    walletDelete := fun _ => .ok () }

/-- A backend whose list is {addr1}. -/
def backendA : Backend :=
  { walletNew := fun _ => .error (.backendErr 1)
    walletHas := fun _ => .ok false
    walletList := .ok [1]
    walletSign := fun _ _ _ => .error (.backendErr 1)
    walletExport := fun _ => .error (.backendErr 1)
    walletImport := fun _ => .error (.backendErr 1)
    walletDelete := fun _ => .error (.backendErr 1) }

/-- A backend whose list is {addr1, addr2}. -/
def backendB : Backend :=
  { walletNew := fun _ => .error (.backendErr 2)
    walletHas := fun _ => .ok false
    walletList := .ok [1, 2]
    walletSign := fun _ _ _ => .error (.backendErr 2)
    walletExport := fun _ => .error (.backendErr 2)
    walletImport := fun _ => .error (.backendErr 2)
    walletDelete := fun _ => .error (.backendErr 2) }

/-- The router over backends {A: {addr1}, B: {addr1, addr2}}. -/
def mwAB : MultiWallet := ⟨[backendA, backendB]⟩

/- ----------------------------------------------------------------
Claim theorems
---------------------------------------------------------------- -/

/-- C9: `OfflineWallet.WalletSign` rejects a payload whose bytes do
not parse as a CID before anything else — for every meta, including an
unrecognized meta type, the result is the CID error and the state
(hence the pending map) is unchanged; and with a valid CID but a meta
type other than `MTChainMsg` it returns the only-chain-msg error, again
with the state unchanged.  So a pending entry is only ever created for
a valid-CID payload with the chain-message meta type. -/
theorem offline_sign_validation (cidFromBytes : Bytes → Option Cid)
    (st : OfflineWalletState) (signer : Address) (toSign : Bytes)
    (meta : MsgMeta) (outcome : Option Signature) :
    (cidFromBytes toSign = none →
      walletSign cidFromBytes st signer toSign meta outcome = (.error .cidInvalid, st))
    ∧ (∀ c, cidFromBytes toSign = some c → meta.mtype ≠ MsgType.MTChainMsg →
      walletSign cidFromBytes st signer toSign meta outcome = (.error .onlyChainMsg, st)) := by
  constructor
  · intro h
    simp [walletSign, h]
  · intro c hc hm
    simp [walletSign, hc, hm]

theorem offline_sign_validation_witness :
    walletSign cfb0 st0 7 [] ⟨MsgType.MTBlock, []⟩ none = (.error .cidInvalid, st0)
    ∧ walletSign cfb0 st0 7 [5] ⟨MsgType.MTBlock, []⟩ none = (.error .onlyChainMsg, st0) :=
  ⟨(offline_sign_validation cfb0 st0 7 [] ⟨MsgType.MTBlock, []⟩ none).1 rfl,
   (offline_sign_validation cfb0 st0 7 [5] ⟨MsgType.MTBlock, []⟩ none).2 5 rfl (by decide)⟩

/-- C8: the safe-wallet decorator fails `WalletNew` and `WalletExport`
with fixed errors regardless of the wrapped backend and the input, and
delegates `WalletHas`, `WalletList`, `WalletSign` and `WalletDelete`
verbatim, producing exactly the wrapped backend's results. -/
theorem safeWallet_restricts_and_delegates (w : Backend) :
    (∀ kt, (safeWallet w).walletNew kt = .error .safeNoNew)
    ∧ (∀ a, (safeWallet w).walletExport a = .error .safeNoExport)
    ∧ (∀ a, (safeWallet w).walletHas a = w.walletHas a)
    ∧ ((safeWallet w).walletList = w.walletList)
    ∧ (∀ s t m, (safeWallet w).walletSign s t m = w.walletSign s t m)
    ∧ (∀ a, (safeWallet w).walletDelete a = w.walletDelete a) :=
  ⟨fun _ => rfl, fun _ => rfl, fun _ => rfl, rfl, fun _ _ _ => rfl, fun _ => rfl⟩

/-- C10: the safe-wallet decorator delegates `WalletImport` to the
wrapped backend unchanged, so importing stays possible even though
`WalletNew` and `WalletExport` are disabled. -/
theorem safeWallet_delegates_import (w : Backend) (info : KeyInfo) :
    (safeWallet w).walletImport info = w.walletImport info := rfl

/-- C3: evaluation of the lock-discipline traces transcribed from the
source.  `OfflineWallet.WalletSign` itself never blocks while holding
the queue mutex (third conjunct), but `OfflineWallet.SubmitSignature`
performs its rendezvous-channel send while holding the queue mutex
(offline.go:187-192), and `WalletServer.WalletSign` performs the
network round trip `c.call` while holding the registry mutex
(server.go:99-113) — so the claim that no guarded lock is ever held
across a blocking wait is violated by the code at both cited places. -/
theorem lock_discipline_violation :
    blockingWhileLocked submitSignatureTrace 0 = true
    ∧ blockingWhileLocked serverWalletSignTrace 0 = true
    ∧ blockingWhileLocked offlineWalletSignTrace 0 = false := by decide

/-- C7: the router's `WalletNew` tries backends strictly in list order
and returns the result of the first backend whose `WalletNew` succeeds,
never consulting the backends after it (the conclusion holds for every
suffix `rest`); and if every backend errors, it returns the aggregate
"no wallet backends supporting key type" error. -/
theorem multiWalletNew_first_success (kt : KeyType) :
    (∀ (pre : List Backend) (wOk : Backend) (rest : List Backend) (a : Address),
      (∀ w ∈ pre, ∃ e, w.walletNew kt = .error e) →
      wOk.walletNew kt = .ok a →
      multiWalletNew (pre ++ wOk :: rest) kt = .ok a)
    ∧ (∀ ws : List Backend,
      (∀ w ∈ ws, ∃ e, w.walletNew kt = .error e) →
      multiWalletNew ws kt = .error (.noBackend kt)) := by
  constructor
  · intro pre
    induction pre with
    | nil =>
      intro wOk rest a _ hok
      simp [multiWalletNew, hok]
    | cons w pre ih =>
      intro wOk rest a hfail hok
      obtain ⟨e, he⟩ := hfail w (List.mem_cons_self w pre)
      have := ih wOk rest a (fun w' hw' => hfail w' (List.mem_cons_of_mem w hw')) hok
      simpa [multiWalletNew, he] using this
  · intro ws
    induction ws with
    | nil => intro _; rfl
    | cons w rest ih =>
      intro hfail
      obtain ⟨e, he⟩ := hfail w (List.mem_cons_self w rest)
      have := ih fun w' hw' => hfail w' (List.mem_cons_of_mem w hw')
      simpa [multiWalletNew, he] using this

theorem multiWalletNew_first_success_witness :
    multiWalletNew [safeWallet backendLocal, backendLocal] "secp256k1" = .ok 5
    ∧ multiWalletNew [safeWallet backendLocal] "secp256k1"
        = .error (.noBackend "secp256k1") :=
  ⟨(multiWalletNew_first_success "secp256k1").1 [safeWallet backendLocal] backendLocal [] 5
     (by
       intro w hw
       have hw' : w = safeWallet backendLocal := List.mem_singleton.mp hw
       exact ⟨.safeNoNew, by subst hw'; rfl⟩)
     rfl,
   (multiWalletNew_first_success "secp256k1").2 [safeWallet backendLocal]
     (by
       intro w hw
       have hw' : w = safeWallet backendLocal := List.mem_singleton.mp hw
       exact ⟨.safeNoNew, by subst hw'; rfl⟩)⟩

/-- C6: the router's `WalletList`, when every backend lists
successfully, returns the union of all backends' lists deduplicated by
address: an address is in the result exactly when some backend reports
it, the result has no duplicates, and every reported address occurs in
it exactly once. -/
theorem multiWalletList_union_dedup (m : MultiWallet)
    (hok : ∀ w ∈ m.wallets, ∃ l, w.walletList = .ok l) :
    ∃ res, multiWalletList m = .ok res ∧ res.Nodup
      ∧ (∀ a, a ∈ res ↔ ∃ w ∈ m.wallets, ∃ l, w.walletList = .ok l ∧ a ∈ l)
      ∧ (∀ a ∈ res, res.count a = 1) := by
  obtain ⟨res, hres, hnd, hmem⟩ := multiWalletListAux_spec m.wallets [] hok
  have hnodup : res.Nodup := hnd List.nodup_nil
  refine ⟨res, hres, hnodup, ?_, ?_⟩
  · intro a
    rw [hmem a]
    simp
  · intro a ha
    exact List.count_eq_one_of_mem hnodup ha

theorem multiWalletList_union_dedup_witness :
    multiWalletList mwAB = .ok [1, 2]
    ∧ ∃ res, multiWalletList mwAB = .ok res ∧ res.Nodup
      ∧ (∀ a, a ∈ res ↔ ∃ w ∈ mwAB.wallets, ∃ l, w.walletList = .ok l ∧ a ∈ l)
      ∧ (∀ a ∈ res, res.count a = 1) :=
  ⟨rfl,
   multiWalletList_union_dedup mwAB
     (by
       intro w hw
       have hw' : w ∈ [backendA, backendB] := hw
       rcases List.mem_cons.mp hw' with rfl | hw'
       · exact ⟨[1], rfl⟩
       · have : w = backendB := List.mem_singleton.mp hw'
         exact ⟨[1, 2], by subst this; rfl⟩)⟩

/-- C2: for a `WalletSign` call that registers a pending entry (valid
CID, chain-message meta), if nothing arrives on the rendezvous channel
within the timeout the call returns the timeout error, and on a
successful receipt it returns the received signature; on both exit
paths the pending entry keyed by (signer, c) has been removed by the
deferred cleanup, and a subsequent `GetPendingMessages` on the
resulting state contains no request for that address and payload. -/
theorem offline_sign_timeout_and_cleanup (cidFromBytes : Bytes → Option Cid)
    (st : OfflineWalletState) (signer : Address) (toSign : Bytes)
    (meta : MsgMeta) (c : Cid)
    (hc : cidFromBytes toSign = some c)
    (hm : meta.mtype = MsgType.MTChainMsg)
    (hwf : wfPending cidFromBytes st) :
    ((walletSign cidFromBytes st signer toSign meta none).1 = .error .timeout)
    ∧ (∀ sig, (walletSign cidFromBytes st signer toSign meta (some sig)).1 = .ok sig)
    ∧ (∀ outcome, lookupPending
        (walletSign cidFromBytes st signer toSign meta outcome).2.unsigned signer c = none)
    ∧ (∀ outcome, ∀ m ∈ getPendingMessages
        (walletSign cidFromBytes st signer toSign meta outcome).2,
        ¬(m.address = signer ∧ cidFromBytes m.toSign = some c)) := by
  have hstate : ∀ outcome, (walletSign cidFromBytes st signer toSign meta outcome).2
      = ⟨erasePending (signRegister st signer toSign meta c).1.unsigned signer c,
         (signRegister st signer toSign meta c).1.nextCh⟩ := by
    intro outcome
    cases outcome <;> simp [walletSign, hc, hm]
  refine ⟨by simp [walletSign, hc, hm], fun sig => by simp [walletSign, hc, hm], ?_, ?_⟩
  · intro outcome
    rw [hstate outcome]
    exact lookupPending_erasePending _ signer c
  · intro outcome m hmem
    rw [hstate outcome] at hmem
    simp only [getPendingMessages, List.mem_map] at hmem
    obtain ⟨e, he, hme⟩ := hmem
    obtain ⟨heIns, hne⟩ := mem_erasePending.mp he
    have hwfe : e.2.2.msg.address = e.1 ∧ cidFromBytes e.2.2.msg.toSign = some e.2.1 := by
      rcases List.mem_cons.mp heIns with heq | hold
      · subst heq
        exact ⟨rfl, hc⟩
      · exact hwf e (mem_erasePending.mp hold).1
    rintro ⟨haddr, hcid⟩
    subst hme
    apply hne
    constructor
    · rw [← hwfe.1, haddr]
    · have := hwfe.2
      rw [hcid] at this
      exact (Option.some_inj.mp this).symm

theorem offline_sign_timeout_and_cleanup_witness :
    ((walletSign cfb0 st0 7 [42] ⟨MsgType.MTChainMsg, []⟩ none).1 = .error .timeout)
    ∧ lookupPending
        (walletSign cfb0 st0 7 [42] ⟨MsgType.MTChainMsg, []⟩ none).2.unsigned 7 42 = none
    ∧ getPendingMessages (walletSign cfb0 st0 7 [42] ⟨MsgType.MTChainMsg, []⟩ none).2 = [] :=
  have h := offline_sign_timeout_and_cleanup cfb0 st0 7 [42] ⟨MsgType.MTChainMsg, []⟩ 42
    rfl rfl (fun e he => absurd he (List.not_mem_nil e))
  ⟨h.1, h.2.2.1 none, rfl⟩

/-- C1: with a pending entry just registered by `WalletSign` at key
(signer, c), a `SubmitSignature` whose signature fails verification
returns the verification error and leaves the whole state — in
particular the pending map, where the entry is still present —
unchanged; a subsequent submission for the same payload whose
signature verifies still succeeds, delivering the submitted signature
on the entry's rendezvous channel, from which the blocked `WalletSign`
returns it.  (`hfresh` pins down the entry the scan of
`SubmitSignature` finds: the Go map's iteration order is unspecified,
so the claim is about a state with no other entry for the same cid.) -/
theorem offline_submit_reject_then_deliver
    (cidFromBytes : Bytes → Option Cid)
    (verify : Signature → Address → Bytes → Bool)
    (st : OfflineWalletState) (signer : Address) (toSign : Bytes)
    (meta : MsgMeta) (c : Cid) (bad good : SignedMessage)
    (hc : cidFromBytes toSign = some c)
    (hm : meta.mtype = MsgType.MTChainMsg)
    (_hfresh : ∀ e ∈ st.unsigned, e.2.1 ≠ c)
    (hbadc : cidFromBytes bad.msg.toSign = some c)
    (hbadv : verify bad.signature bad.msg.address bad.msg.toSign = false)
    (hgoodc : cidFromBytes good.msg.toSign = some c)
    (hgoodv : verify good.signature good.msg.address good.msg.toSign = true) :
    lookupPending (signRegister st signer toSign meta c).1.unsigned signer c
      = some ⟨⟨signer, toSign, meta⟩, st.nextCh⟩
    ∧ submitSignature cidFromBytes verify (signRegister st signer toSign meta c).1 bad
      = (.error .verifyFailed, (signRegister st signer toSign meta c).1)
    ∧ (submitSignature cidFromBytes verify (signRegister st signer toSign meta c).1 good).1
      = .ok ((signRegister st signer toSign meta c).2, good.signature)
    ∧ (walletSign cidFromBytes st signer toSign meta (some good.signature)).1
      = .ok good.signature := by
  refine ⟨?_, ?_, ?_, ?_⟩
  · simp [signRegister, insertPending, lookupPending, List.find?]
  · simp [submitSignature, hbadc, hbadv]
  · simp [submitSignature, hgoodc, hgoodv, findByCid, signRegister, insertPending,
      List.find?]
  · simp [walletSign, hc, hm]

theorem offline_submit_reject_then_deliver_witness :
    lookupPending (signRegister st0 7 [42] ⟨MsgType.MTChainMsg, []⟩ 42).1.unsigned 7 42
      = some ⟨⟨7, [42], ⟨MsgType.MTChainMsg, []⟩⟩, 0⟩
    ∧ submitSignature cfb0 verify0 (signRegister st0 7 [42] ⟨MsgType.MTChainMsg, []⟩ 42).1
        ⟨⟨7, [42], ⟨MsgType.MTChainMsg, []⟩⟩, ⟨0, [3]⟩⟩
      = (.error .verifyFailed, (signRegister st0 7 [42] ⟨MsgType.MTChainMsg, []⟩ 42).1)
    ∧ (submitSignature cfb0 verify0 (signRegister st0 7 [42] ⟨MsgType.MTChainMsg, []⟩ 42).1
        ⟨⟨7, [42], ⟨MsgType.MTChainMsg, []⟩⟩, ⟨1, [4]⟩⟩).1
      = .ok ((signRegister st0 7 [42] ⟨MsgType.MTChainMsg, []⟩ 42).2, ⟨1, [4]⟩)
    ∧ (walletSign cfb0 st0 7 [42] ⟨MsgType.MTChainMsg, []⟩ (some ⟨1, [4]⟩)).1
      = .ok ⟨1, [4]⟩ :=
  offline_submit_reject_then_deliver cfb0 verify0 st0 7 [42] ⟨MsgType.MTChainMsg, []⟩ 42
    ⟨⟨7, [42], ⟨MsgType.MTChainMsg, []⟩⟩, ⟨0, [3]⟩⟩
    ⟨⟨7, [42], ⟨MsgType.MTChainMsg, []⟩⟩, ⟨1, [4]⟩⟩
    rfl rfl (fun e he => absurd he (List.not_mem_nil e)) rfl rfl rfl rfl

/-- C4: for a registered relay connection advertising the signer's
address, `WalletServer.WalletSign` sends a sign-request command whose
payload decodes to exactly {signer, payload, meta}; when the reply's
payload decodes as a sign-response, a non-empty error string makes the
call fail with exactly that error string (the signature field is not
consulted), and an empty error string makes the call return the carried
signature unchanged. -/
theorem relay_sign_roundtrip
    (reply : Nat → Command → Except Unit Command) (st : WalletServerState)
    (c : ClientWallet) (signer : Address) (toSign : Bytes) (meta : MsgMeta)
    (out : Command) (resp : SignResponse)
    (hst : st.clients = [c])
    (hadv : signer ∈ c.addresses)
    (hreply : reply c.connId
        ⟨CommandSignRequest, WireData.signReq ⟨signer, toSign, meta⟩⟩ = .ok out)
    (hresp : unmarshalSignResp out.data = some resp) :
    (serverWalletSign reply st signer toSign meta).2
      = some ⟨CommandSignRequest, WireData.signReq ⟨signer, toSign, meta⟩⟩
    ∧ unmarshalSignReq (WireData.signReq ⟨signer, toSign, meta⟩)
      = some ⟨signer, toSign, meta⟩
    ∧ (resp.err ≠ "" →
        (serverWalletSign reply st signer toSign meta).1 = .error (.remoteErr resp.err))
    ∧ (resp.err = "" →
        (serverWalletSign reply st signer toSign meta).1 = .ok resp.signature) := by
  have hfind : findClient st.clients signer = some c := by
    rw [hst]
    simp [findClient, hadv]
  refine ⟨?_, rfl, ?_, ?_⟩
  · by_cases hlen : resp.err.length > 0 <;>
      simp [serverWalletSign, hfind, hreply, hresp, hlen]
  · intro hne
    have hlen : resp.err.length > 0 := (string_ne_empty_iff_length_pos resp.err).mp hne
    simp [serverWalletSign, hfind, hreply, hresp, hlen]
  · intro heq
    have hlen : ¬ resp.err.length > 0 := by
      simp [heq]
    simp [serverWalletSign, hfind, hreply, hresp, hlen]

theorem relay_sign_roundtrip_witness :
    (serverWalletSign (fun _ _ => .ok ⟨CommandSignResponse, .signResp ⟨some ⟨1, [2]⟩, ""⟩⟩)
        ⟨[⟨[3], 0⟩]⟩ 3 [1] ⟨MsgType.MTChainMsg, []⟩).2
      = some ⟨CommandSignRequest, WireData.signReq ⟨3, [1], ⟨MsgType.MTChainMsg, []⟩⟩⟩
    ∧ unmarshalSignReq (WireData.signReq ⟨3, [1], ⟨MsgType.MTChainMsg, []⟩⟩)
      = some ⟨3, [1], ⟨MsgType.MTChainMsg, []⟩⟩
    ∧ ((SignResponse.mk (some ⟨1, [2]⟩) "").err ≠ "" →
        (serverWalletSign (fun _ _ => .ok ⟨CommandSignResponse, .signResp ⟨some ⟨1, [2]⟩, ""⟩⟩)
          ⟨[⟨[3], 0⟩]⟩ 3 [1] ⟨MsgType.MTChainMsg, []⟩).1
        = .error (.remoteErr (SignResponse.mk (some ⟨1, [2]⟩) "").err))
    ∧ ((SignResponse.mk (some ⟨1, [2]⟩) "").err = "" →
        (serverWalletSign (fun _ _ => .ok ⟨CommandSignResponse, .signResp ⟨some ⟨1, [2]⟩, ""⟩⟩)
          ⟨[⟨[3], 0⟩]⟩ 3 [1] ⟨MsgType.MTChainMsg, []⟩).1
        = .ok (SignResponse.mk (some ⟨1, [2]⟩) "").signature) :=
  relay_sign_roundtrip (fun _ _ => .ok ⟨CommandSignResponse, .signResp ⟨some ⟨1, [2]⟩, ""⟩⟩)
    ⟨[⟨[3], 0⟩]⟩ ⟨[3], 0⟩ 3 [1] ⟨MsgType.MTChainMsg, []⟩
    ⟨CommandSignResponse, .signResp ⟨some ⟨1, [2]⟩, ""⟩⟩ ⟨some ⟨1, [2]⟩, ""⟩
    rfl (List.mem_singleton.mpr rfl) rfl rfl

/-- C5: if the reply to the server's initial list-wallets request is
absent (transport error), of the wrong command kind, or fails to decode
as a list-wallets response, then the handshake `serve` fails with an
error and the client registry is unchanged — the connection is never
registered; consequently a `WalletSign` for an address no registered
client advertises (in particular an address only that connection would
have advertised) returns the "wallet not exist" error. -/
theorem relay_handshake_rejects_malformed
    (reply : Except Unit Command) (st : WalletServerState) (connId : Nat)
    (addrX : Address) (toSign : Bytes) (meta : MsgMeta)
    (laterReply : Nat → Command → Except Unit Command)
    (hbad : handshakeOk reply = false)
    (hno : ∀ cl ∈ st.clients, addrX ∉ cl.addresses) :
    (∃ e, (serve reply st connId).1 = .error e)
    ∧ (serve reply st connId).2 = st
    ∧ (serverWalletSign laterReply (serve reply st connId).2 addrX toSign meta).1
      = .error .walletNotExist := by
  have hserve : (∃ e, (serve reply st connId).1 = .error e)
      ∧ (serve reply st connId).2 = st := by
    cases reply with
    | error u => exact ⟨⟨.listWallets, rfl⟩, rfl⟩
    | ok out =>
      by_cases hcmd : out.command = CommandListWalletResponse
      · have hdec : unmarshalListWalletResp out.data = none := by
          simp only [handshakeOk, hcmd, beq_self_eq_true, Bool.true_and] at hbad
          exact Option.not_isSome_iff_eq_none.mp (by simp [hbad])
        refine ⟨⟨.decodeAddresses, ?_⟩, ?_⟩ <;> simp [serve, hcmd, hdec]
      · exact ⟨⟨.expectListWalletResponse, by simp [serve, hcmd]⟩, by simp [serve, hcmd]⟩
  refine ⟨hserve.1, hserve.2, ?_⟩
  rw [hserve.2]
  simp [serverWalletSign, findClient_eq_none hno]

theorem relay_handshake_rejects_malformed_witness :
    (∃ e, (serve (.ok ⟨CommandListWalletResponse, .corrupt 0⟩) ⟨[]⟩ 0).1 = .error e)
    ∧ (serve (.ok ⟨CommandListWalletResponse, .corrupt 0⟩) ⟨[]⟩ 0).2 = ⟨[]⟩
    ∧ (serverWalletSign (fun _ _ => .error ())
        (serve (.ok ⟨CommandListWalletResponse, .corrupt 0⟩) ⟨[]⟩ 0).2 3 [1]
        ⟨MsgType.MTChainMsg, []⟩).1
      = .error .walletNotExist :=
  relay_handshake_rejects_malformed (.ok ⟨CommandListWalletResponse, .corrupt 0⟩) ⟨[]⟩ 0
    3 [1] ⟨MsgType.MTChainMsg, []⟩ (fun _ _ => .error ())
    rfl (fun cl hcl => absurd hcl (List.not_mem_nil cl))
